import Mathlib

/-!
Verification development for the hevy fitness-dashboard repository.

The Python source under `app/` is shallowly embedded below:

* Python `float` values are modelled as exact rationals (`ℚ`); all the
  verified properties are threshold comparisons and exact arithmetic on
  those values.
* Python `datetime` values are modelled as an integer number of seconds
  (`Time := Int`) since an epoch placed at a Monday 00:00:00 UTC.  The
  `isocalendar()` week pair `(year, week)` used by the source to build
  `"YYYY-Www"` bucket keys is modelled by `isoWeekKey`, the absolute index
  of the ISO (Monday-to-Sunday) week containing the instant; this mapping
  is order-isomorphic to the zero-padded key strings the source sorts.
  Likewise `date.isoformat()` keys are modelled by the absolute day index
  `dayKey`, order-isomorphic to `"YYYY-MM-DD"` strings.
* Python strings are `String`, with `str.lower` as `pyLower` on the
  underlying character list and the `in` substring test as `pyContains`.
* `sorted(...)` / `list.sort(...)` are modelled by the stable insertion
  sort `sortBy`; Python `round` (half-to-even) by `pyRound` / `round_to`.
* The relational store is a `DB` record of row lists; SQL `SELECT ... WHERE`
  is list filtering, and committed/pending rows are not distinguished
  (the sync loop flushes after every new relation row, so every lookup the
  code performs sees all previously added rows).
-/

namespace HevyApp

/-! ## Python-flavoured helpers -/

/-- Floor of a rational, computable by the kernel. -/
def qfloor (q : ℚ) : ℤ := Int.fdiv q.num q.den

/-- Python `round(x)`: round half to even ("banker's rounding"). -/
def pyRound (q : ℚ) : ℤ :=
  let f := qfloor q
  if q - (f : ℚ) < 1/2 then f
  else if (1/2 : ℚ) < q - (f : ℚ) then f + 1
  else if f % 2 = 0 then f else f + 1

/-- `10 ^ n` as a rational, by structural recursion. -/
def pow10 : ℕ → ℚ
  | 0 => 1
  | n + 1 => 10 * pow10 n

/-- Python `round(x, ndigits)`. -/
def round_to (q : ℚ) (ndigits : ℕ) : ℚ :=
  (pyRound (q * pow10 ndigits) : ℚ) / pow10 ndigits

theorem qfloor_eq_floor (q : ℚ) : qfloor q = ⌊q⌋ := by
  rw [qfloor, Rat.floor_def]
  exact Int.fdiv_eq_ediv _ (by exact_mod_cast q.den_pos.le)

/-- Python `str.lower()` on the character list of a string. -/
def pyLower (s : List Char) : List Char := s.map Char.toLower

/-- Python `needle in hay` substring containment. -/
def pyContains (hay needle : List Char) : Bool :=
  (List.range (hay.length + 1)).any (fun i => needle.isPrefixOf (hay.drop i))

/-- Insert into a sorted list, before the first element not smaller than the
inserted one; `sortBy` below is therefore a stable sort, like Python's. -/
def insertSorted {α : Type} (le : α → α → Bool) (x : α) : List α → List α
  | [] => [x]
  | y :: ys => if le x y then x :: y :: ys else y :: insertSorted le x ys

/-- Stable insertion sort, modelling Python `sorted` / `list.sort`. -/
def sortBy {α : Type} (le : α → α → Bool) (xs : List α) : List α :=
  xs.foldr (insertSorted le) []

theorem length_insertSorted {α : Type} (le : α → α → Bool) (x : α) (xs : List α) :
    (insertSorted le x xs).length = xs.length + 1 := by
  induction xs with
  | nil => rfl
  | cons y ys ih =>
    simp only [insertSorted]
    split
    · simp
    · simp [ih]

theorem mem_insertSorted {α : Type} (le : α → α → Bool) (x a : α) (xs : List α) :
    a ∈ insertSorted le x xs ↔ a = x ∨ a ∈ xs := by
  induction xs with
  | nil => simp [insertSorted]
  | cons y ys ih =>
    simp only [insertSorted]
    split
    · simp
    · simp only [List.mem_cons, ih]
      tauto

theorem length_sortBy {α : Type} (le : α → α → Bool) (xs : List α) :
    (sortBy le xs).length = xs.length := by
  induction xs with
  | nil => rfl
  | cons y ys ih =>
    simp only [sortBy, List.foldr] at ih ⊢
    rw [length_insertSorted, ih]
    simp

theorem mem_sortBy {α : Type} (le : α → α → Bool) (a : α) (xs : List α) :
    a ∈ sortBy le xs ↔ a ∈ xs := by
  induction xs with
  | nil => simp [sortBy]
  | cons y ys ih =>
    simp only [sortBy, List.foldr] at ih ⊢
    rw [mem_insertSorted]
    simp [ih]

theorem pairwise_insertSorted (x : ℤ) (xs : List ℤ)
    (h : xs.Pairwise (fun a b => a ≤ b)) :
    (insertSorted (fun a b : ℤ => decide (a ≤ b)) x xs).Pairwise (fun a b => a ≤ b) := by
  induction xs with
  | nil => simp [insertSorted]
  | cons y ys ih =>
    simp only [insertSorted]
    split
    · rename_i hle
      simp only [decide_eq_true_eq] at hle
      rw [List.pairwise_cons]
      constructor
      · intro b hb
        rcases List.mem_cons.mp hb with hb | hb
        · omega
        · have := (List.pairwise_cons.mp h).1 b hb
          omega
      · exact h
    · rename_i hle
      simp only [decide_eq_true_eq] at hle
      rw [List.pairwise_cons] at h ⊢
      constructor
      · intro b hb
        rw [mem_insertSorted] at hb
        rcases hb with hb | hb
        · omega
        · exact h.1 b hb
      · exact ih h.2

theorem pairwise_sortBy (xs : List ℤ) :
    (sortBy (fun a b : ℤ => decide (a ≤ b)) xs).Pairwise (fun a b => a ≤ b) := by
  induction xs with
  | nil => simp [sortBy]
  | cons y ys ih => exact pairwise_insertSorted y _ ih

/-! ## Time model -/

/-- Seconds since an epoch located at a Monday 00:00:00 UTC. -/
abbrev Time := Int

def secondsPerWeek : Int := 604800

def secondsPerDay : Int := 86400

/-- Absolute index of the ISO calendar week containing `t`; models the
`(year, week)` pair of `datetime.isocalendar()` and the `"YYYY-Www"` keys
built from it (the correspondence preserves order and distinctness). -/
def isoWeekKey (t : Time) : Int := Int.fdiv t secondsPerWeek

/-- Absolute day index of `t`; models `date.isoformat()` keys. -/
def dayKey (t : Time) : Int := Int.fdiv t secondsPerDay

/-! ## Data model (`app/models.py`) -/

/-- `models.Workout`. -/
structure Workout where
  id : String
  title : Option String
  started_at : Time
  ended_at : Option Time
  notes : Option String
deriving DecidableEq, Repr

/-- `models.Exercise`. -/
structure Exercise where
  id : String
  name : String
deriving DecidableEq, Repr

/-- `models.WorkoutExercise`: link row with autoincrement surrogate id. -/
structure WorkoutExercise where
  id : Nat
  workout_id : String
  exercise_id : String
deriving DecidableEq, Repr

/-- `models.SetLog`.  Weight is stored in kilograms. -/
structure SetLog where
  workout_exercise_id : Nat
  weight : ℚ
  reps : Int
  rpe : Option ℚ
deriving DecidableEq, Repr

/-- The relational store: one list per table, plus the next autoincrement
surrogate key for `workoutexercise`. -/
structure DB where
  workouts : List Workout
  exercises : List Exercise
  workout_exercises : List WorkoutExercise
  sets : List SetLog
  next_we_id : Nat
deriving DecidableEq, Repr

/-- `SELECT setlog WHERE workout_exercise_id = we_id`, in insertion order;
also models the `sets_by_we` grouping dictionaries in `stats.py`. -/
def sets_for (db : DB) (we_id : Nat) : List SetLog :=
  db.sets.filter (fun s => decide (s.workout_exercise_id = we_id))

/-- `KG_TO_LBS = 2.20462` (`app/services/stats.py`). -/
def KG_TO_LBS : ℚ := 220462 / 100000

/-! ## Muscle-group categorization (`stats.py`, `categorize_exercise`) -/

/-- The `MUSCLE_GROUPS` keyword table, in the source's (insertion) order. -/
def MUSCLE_GROUPS : List (String × List (List Char)) := [
  ("Chest", ["bench press".data, "chest fly".data, "chest press".data,
             "push up".data, "dip".data, "pec".data]),
  ("Back", ["row".data, "pull up".data, "pulldown".data, "lat pull".data,
            "deadlift".data, "shrug".data]),
  ("Shoulders", ["shoulder press".data, "lateral raise".data, "front raise".data,
                 "overhead press".data, "military press".data, "arnold press".data]),
  ("Biceps", ["curl".data, "bicep".data, "hammer curl".data, "preacher curl".data,
              "concentration curl".data, "spider curl".data]),
  ("Triceps", ["tricep".data, "skull crusher".data, "pushdown".data,
               "tricep extension".data, "overhead extension".data,
               "close grip".data, "dip".data]),
  ("Legs", ["squat".data, "leg press".data, "leg curl".data, "leg extension".data,
            "lunge".data, "calf".data, "hip thrust".data]),
  ("Core", ["crunch".data, "plank".data, "ab".data, "sit up".data,
            "russian twist".data, "leg raise".data]),
  ("Cardio", ["run".data, "bike".data, "treadmill".data, "elliptical".data,
              "rowing".data])]

/-- `MUSCLE_GROUPS.get(name, [])`. -/
def groupKeywords (group : String) : List (List Char) :=
  ((MUSCLE_GROUPS.find? (fun g => decide (g.1 = group))).map Prod.snd).getD []

/-- `categorize_exercise` from `stats.py`: Biceps keywords first (suppressed
when the lowered name contains `"tricep"`), then Triceps, then the remaining
groups in table order, defaulting to `"Other"`. -/
def categorize_exercise (exercise_name : String) : String :=
  let name_lower := pyLower exercise_name.data
  if (groupKeywords "Biceps").any (fun kw => pyContains name_lower kw) &&
      !(pyContains name_lower "tricep".data) then
    "Biceps"
  else if (groupKeywords "Triceps").any (fun kw => pyContains name_lower kw) then
    "Triceps"
  else
    match MUSCLE_GROUPS.find? (fun g =>
        !(decide (g.1 = "Biceps")) && !(decide (g.1 = "Triceps")) &&
        g.2.any (fun kw => pyContains name_lower kw)) with
    | some g => g.1
    | none => "Other"

/-- C4: every exercise display name whose case-folded form contains both
`"bicep"` and `"tricep"` is categorized as `"Triceps"`, never `"Biceps"`. -/
theorem C4_bicep_tricep_categorized_as_triceps (name : String)
    (hb : pyContains (pyLower name.data) "bicep".data = true)
    (ht : pyContains (pyLower name.data) "tricep".data = true) :
    categorize_exercise name = "Triceps" ∧ categorize_exercise name ≠ "Biceps" := by
  have hmem : "bicep".data ∈ groupKeywords "Biceps" := by decide
  have hmem' : "tricep".data ∈ groupKeywords "Triceps" := by decide
  have hany : (groupKeywords "Biceps").any
      (fun kw => pyContains (pyLower name.data) kw) = true :=
    List.any_eq_true.mpr ⟨"bicep".data, hmem, hb⟩
  have hany' : (groupKeywords "Triceps").any
      (fun kw => pyContains (pyLower name.data) kw) = true :=
    List.any_eq_true.mpr ⟨"tricep".data, hmem', ht⟩
  have hcat : categorize_exercise name = "Triceps" := by
    unfold categorize_exercise
    simp only [hany, ht, hany', Bool.not_true, Bool.and_false, Bool.false_eq_true,
      if_false, if_true]
  exact ⟨hcat, by rw [hcat]; decide⟩

/-- Witness for C4 at the concrete name `"Bicep Tricep Cable"`. -/
theorem C4_bicep_tricep_categorized_as_triceps_witness :
    pyContains (pyLower "Bicep Tricep Cable".data) "bicep".data = true ∧
    pyContains (pyLower "Bicep Tricep Cable".data) "tricep".data = true ∧
    (categorize_exercise "Bicep Tricep Cable" = "Triceps" ∧
      categorize_exercise "Bicep Tricep Cable" ≠ "Biceps") :=
  ⟨by decide, by decide,
    C4_bicep_tricep_categorized_as_triceps "Bicep Tricep Cable" (by decide) (by decide)⟩

/-! ## Normalizer per-set weight resolution (`hevy_client.py`) -/

/-- The result of `s.get(key)` on a raw upstream set mapping for each of the
weight-bearing keys: `none` models a missing key (or an explicit JSON null,
which `dict.get` makes indistinguishable from a missing key), `some v` a
numeric value. -/
structure RawSet where
  weight_kg : Option ℚ
  weight : Option ℚ
  kg : Option ℚ
  lbs : Option ℚ
deriving DecidableEq, Repr

/-- Python `a or b` on an optional numeric left operand: `a` wins only when
present and truthy (nonzero). -/
def pyOr (a : Option ℚ) (b : ℚ) : ℚ :=
  match a with
  | some v => if v = 0 then b else v
  | none => b

/-- `float(s.get("weight_kg") or s.get("weight") or 0)` — the per-set weight
resolution in `fetch_latest_workouts`' primary parse (line 193). -/
def resolve_weight_latest (s : RawSet) : ℚ :=
  pyOr s.weight_kg (pyOr s.weight 0)

/-- `float(s.get("weight_kg") or s.get("weight") or s.get("kg") or
s.get("lbs") or 0)` — the per-set weight resolution in `fetch_all_workouts`'
primary parse (line 340). -/
def resolve_weight_backfill (s : RawSet) : ℚ :=
  pyOr s.weight_kg (pyOr s.weight (pyOr s.kg (pyOr s.lbs 0)))

/-- `float(s.get("weight") or s.get("kg") or s.get("lbs") or 0)` — the
per-set weight resolution on the detail-endpoint fallback path (lines 217
and 363). -/
def resolve_weight_detail (s : RawSet) : ℚ :=
  pyOr s.weight (pyOr s.kg (pyOr s.lbs 0))

/-- Modelled from the spec's words for C7: "the resolved weight equals the
value of the first key *present* in the priority chain `weight_kg` then
`weight` ..., and equals 0 when none of the keys is present". -/
def resolve_weight_spec_first_present (s : RawSet) : ℚ :=
  match s.weight_kg with
  | some v => v
  | none =>
    match s.weight with
    | some v => v
    | none => 0

/-- Amended policy for C7: the first key in the chain whose value is present
*and truthy (nonzero)* wins, and the result is 0 when no key holds a truthy
value.  The chains are `weight_kg → weight` (latest-sync primary parse),
`weight_kg → weight → kg → lbs` (backfill primary parse), and
`weight → kg → lbs` (detail-endpoint fallback). -/
def first_truthy : List (Option ℚ) → ℚ
  | [] => 0
  | a :: rest =>
    match a with
    | some v => if v = 0 then first_truthy rest else v
    | none => first_truthy rest

/-- C7 counterexample: a set carrying `weight_kg = 0` and `weight = 50`
resolves to 50 on the latest path (the present `weight_kg` key does *not*
win), and a set carrying `weight_kg = 0`, no `weight`, and `kg = 30`
resolves to 30 on the backfill *primary* parse (so `kg` is consulted off
the detail fallback as well). -/
theorem C7_first_present_counterexample :
    resolve_weight_latest ⟨some 0, some 50, none, none⟩ = 50 ∧
    resolve_weight_spec_first_present ⟨some 0, some 50, none, none⟩ = 0 ∧
    resolve_weight_latest ⟨some 0, some 50, none, none⟩ ≠
      resolve_weight_spec_first_present ⟨some 0, some 50, none, none⟩ ∧
    resolve_weight_backfill ⟨some 0, none, some 30, none⟩ = 30 ∧
    resolve_weight_spec_first_present ⟨some 0, none, some 30, none⟩ = 0 ∧
    resolve_weight_backfill ⟨some 0, none, some 30, none⟩ ≠
      resolve_weight_spec_first_present ⟨some 0, none, some 30, none⟩ := by
  with_unfolding_all decide

/-- C7 amended: on every raw set mapping, each resolution path returns the
first present-and-truthy value of its chain (0 when none), with `kg`/`lbs`
consulted on the backfill primary parse as well as on the detail fallback. -/
theorem C7_weight_resolution_first_truthy (s : RawSet) :
    resolve_weight_latest s = first_truthy [s.weight_kg, s.weight] ∧
    resolve_weight_backfill s = first_truthy [s.weight_kg, s.weight, s.kg, s.lbs] ∧
    resolve_weight_detail s = first_truthy [s.weight, s.kg, s.lbs] := by
  obtain ⟨wkg, w, kg, lbs⟩ := s
  refine ⟨?_, ?_, ?_⟩ <;>
    cases wkg <;> cases w <;> cases kg <;> cases lbs <;>
      simp only [resolve_weight_latest, resolve_weight_backfill,
        resolve_weight_detail, pyOr, first_truthy]

/-! ## Pagination loop, latest-N mode (`hevy_client.py`, `fetch_latest_workouts`) -/

/-- `page_size = min(max(1, limit), 50)` (line 114). -/
def page_size_of (limit : Nat) : Nat := min (max 1 limit) 50

/-- The items served by pages `start, start + 1, ..., start + k - 1` of an
upstream, concatenated. -/
def pages_concat {α : Type} (pages : Nat → List α) (start : Nat) : Nat → List α
  | 0 => []
  | k + 1 => pages start ++ pages_concat pages (start + 1) k

/-- The `while collected < limit` accumulation loop of
`fetch_latest_workouts` (lines 116–165): request page `page`, extend `items`,
count the request, stop on an empty page, else advance to the next page.
The upstream is abstracted as the per-page item lists it serves (HTTP
transport, auth fallback and response-shape resolution produce exactly one
item list per requested page). -/
def fetch_pages {α : Type} (pages : Nat → List α) (limit : Nat)
    (page collected : Nat) (items : List α) (fetched_pages : Nat) : List α × Nat :=
  if h : collected < limit then
    if he : (pages page).length = 0 then
      (items ++ pages page, fetched_pages + 1)
    else
      fetch_pages pages limit (page + 1) (collected + (pages page).length)
        (items ++ pages page) (fetched_pages + 1)
  else (items, fetched_pages)
termination_by limit - collected
decreasing_by omega

/-- The accumulated items and request count of `fetch_latest_workouts`'
pagination loop: pages are numbered from 1, nothing accumulated yet. -/
def fetch_latest_items {α : Type} (pages : Nat → List α) (limit : Nat) : List α × Nat :=
  fetch_pages pages limit 1 0 [] 0

theorem fetch_pages_spec {α : Type} (pages : Nat → List α) (limit : Nat)
    (page collected : Nat) (items : List α) (reqs : Nat) :
    ∃ k, fetch_pages pages limit page collected items reqs
        = (items ++ pages_concat pages page k, reqs + k) ∧
      (k = 0 → ¬ collected < limit) ∧
      (∀ j, j < k → collected + (pages_concat pages page j).length < limit) ∧
      (∀ j, j + 1 < k → pages (page + j) ≠ []) ∧
      (1 ≤ k → pages (page + k - 1) = [] ∨
        limit ≤ collected + (pages_concat pages page k).length) := by
  rw [fetch_pages]
  split
  · rename_i h
    split
    · rename_i he
      refine ⟨1, ?_, ?_, ?_, ?_, ?_⟩
      · simp [pages_concat, List.length_eq_zero.mp he]
      · omega
      · intro j hj
        interval_cases j
        simpa [pages_concat] using h
      · omega
      · intro _
        left
        simpa using List.length_eq_zero.mp he
    · rename_i he
      obtain ⟨k', hk', c0, c1, c2, c3⟩ := fetch_pages_spec pages limit (page + 1)
        (collected + (pages page).length) (items ++ pages page) (reqs + 1)
      refine ⟨k' + 1, ?_, ?_, ?_, ?_, ?_⟩
      · rw [hk']
        simp [pages_concat, List.append_assoc]
        omega
      · omega
      · intro j hj
        cases j with
        | zero => simpa [pages_concat] using h
        | succ j' =>
          have := c1 j' (by omega)
          simp only [pages_concat, List.length_append] at this ⊢
          omega
      · intro j hj
        cases j with
        | zero =>
          intro hcon
          apply he
          rw [Nat.add_zero] at hcon
          simp [hcon]
        | succ j' =>
          have := c2 j' (by omega)
          simpa [Nat.add_assoc, Nat.add_comm 1 j'] using this
      · intro _
        rcases Nat.eq_zero_or_pos k' with hk0 | hk1
        · subst hk0
          right
          have := c0 rfl
          simp only [pages_concat, List.length_append, List.length_nil] at *
          omega
        · rcases c3 (by omega) with hleft | hright
          · left
            have : page + 1 + k' - 1 = page + (k' + 1) - 1 := by omega
            rwa [this] at hleft
          · right
            simp only [pages_concat, List.length_append] at hright ⊢
            omega
  · rename_i h
    exact ⟨0, by simp [pages_concat], fun _ => h, by omega, by omega, by omega⟩
termination_by limit - collected
decreasing_by omega

/-- The three-page mock upstream of the claim: pages 1 and 2 serve 5 items
each, every later page is empty. -/
def mock_pages_550 : Nat → List Unit :=
  fun n => if n ≤ 2 then List.replicate 5 () else []

/-- C5: the latest-N fetch loop uses page size `min(limit, 50)` (for any
positive requested limit), accumulates exactly the items of the pages it
requested, and stops exactly when an empty page is returned or the
accumulated count has reached the requested limit; on the mock upstream
serving pages `[5 items, 5 items, 0 items]` with the default limit 50 it
accumulates exactly 10 items and issues no request beyond the third page. -/
theorem C5_pagination_termination {α : Type} (pages : Nat → List α) (limit : Nat) :
    (1 ≤ limit → page_size_of limit = min limit 50) ∧
    ((fetch_latest_items pages limit).1
        = pages_concat pages 1 (fetch_latest_items pages limit).2 ∧
      ((fetch_latest_items pages limit).2 = 0 → limit = 0) ∧
      (∀ j, j < (fetch_latest_items pages limit).2 →
        (pages_concat pages 1 j).length < limit) ∧
      (∀ j, j + 1 < (fetch_latest_items pages limit).2 → pages (1 + j) ≠ []) ∧
      (1 ≤ (fetch_latest_items pages limit).2 →
        pages (fetch_latest_items pages limit).2 = [] ∨
        limit ≤ (pages_concat pages 1 (fetch_latest_items pages limit).2).length)) ∧
    fetch_latest_items mock_pages_550 50 = (List.replicate 10 (), 3) := by
  refine ⟨?_, ?_, ?_⟩
  · intro h1
    simp only [page_size_of]
    omega
  · obtain ⟨k, hk, c0, c1, c2, c3⟩ := fetch_pages_spec pages limit 1 0 [] 0
    have h1 : (fetch_latest_items pages limit).1 = pages_concat pages 1 k := by
      simp [fetch_latest_items, hk]
    have h2 : (fetch_latest_items pages limit).2 = k := by
      simp [fetch_latest_items, hk]
    rw [h1, h2]
    refine ⟨rfl, ?_, ?_, ?_, ?_⟩
    · intro hk0
      have := c0 hk0
      omega
    · intro j hj
      have := c1 j hj
      omega
    · exact c2
    · intro h1
      rcases c3 h1 with hl | hr
      · left
        have : 1 + k - 1 = k := by omega
        rwa [this] at hl
      · right
        omega
  · show fetch_pages mock_pages_550 50 1 0 [] 0 = (List.replicate 10 (), 3)
    rw [fetch_pages]
    norm_num [mock_pages_550]
    rw [fetch_pages]
    norm_num [mock_pages_550]
    rw [fetch_pages]
    norm_num [mock_pages_550]

/-- Witness for C5 at the mock upstream and the default limit 50. -/
theorem C5_pagination_termination_witness :
    page_size_of 50 = min 50 50 ∧
    fetch_latest_items mock_pages_550 50 = (List.replicate 10 (), 3) :=
  ⟨(C5_pagination_termination mock_pages_550 50).1 (by decide),
    (C5_pagination_termination mock_pages_550 50).2.2⟩

/-! ## Canonical upstream model (`hevy_client.py` pydantic models) -/

/-- `HevyExercise`. -/
structure HevyExercise where
  id : String
  name : String
deriving DecidableEq, Repr

/-- `HevySet`. -/
structure HevySet where
  weight : ℚ
  reps : Int
  rpe : Option ℚ
deriving DecidableEq, Repr

/-- `HevyExerciseLog`. -/
structure HevyExerciseLog where
  exercise : HevyExercise
  sets : List HevySet
deriving DecidableEq, Repr

/-- `HevyWorkout`. -/
structure HevyWorkout where
  id : String
  title : Option String
  started_at : Time
  ended_at : Option Time
  notes : Option String
  logs : List HevyExerciseLog
deriving DecidableEq, Repr

/-! ## Reconciliation engine (`sync.py`) -/

/-- `SELECT workout WHERE id = wid`, first row. -/
def find_workout (db : DB) (wid : String) : Option Workout :=
  db.workouts.find? (fun w => decide (w.id = wid))

/-- `SELECT exercise WHERE id = exid`, first row. -/
def find_exercise (db : DB) (exid : String) : Option Exercise :=
  db.exercises.find? (fun e => decide (e.id = exid))

/-- `SELECT workoutexercise WHERE workout_id = wid AND exercise_id = exid`,
first row. -/
def find_rel (db : DB) (wid exid : String) : Option WorkoutExercise :=
  db.workout_exercises.find?
    (fun r => decide (r.workout_id = wid) && decide (r.exercise_id = exid))

/-- The per-log body of the sync loop (`sync.py` lines 43–71 and 107–134):
look up the Exercise and insert it when absent; look up the
(workout, exercise) link row and insert it when absent (the flush assigns
its autoincrement surrogate id); then append *all* incoming sets under that
surrogate id. -/
def sync_log (db : DB) (wid : String) (log : HevyExerciseLog) : DB :=
  let db1 :=
    match find_exercise db log.exercise.id with
    | some _ => db
    | none =>
      { db with exercises := db.exercises ++ [⟨log.exercise.id, log.exercise.name⟩] }
  let step2 : DB × Nat :=
    match find_rel db1 wid log.exercise.id with
    | some rel => (db1, rel.id)
    | none =>
      ({ db1 with
          workout_exercises :=
            db1.workout_exercises ++ [⟨db1.next_we_id, wid, log.exercise.id⟩],
          next_we_id := db1.next_we_id + 1 },
        db1.next_we_id)
  { step2.1 with
    sets := step2.1.sets ++ log.sets.map (fun s => ⟨step2.2, s.weight, s.reps, s.rpe⟩) }

/-- The per-workout body of the sync loop: insert a Workout row when the
incoming id is absent (counting it as inserted), leave the row untouched
otherwise, then reconcile every exercise log. -/
def sync_workout (db : DB) (w : HevyWorkout) : DB × Bool :=
  let step1 : DB × Bool :=
    match find_workout db w.id with
    | some _ => (db, false)
    | none =>
      ({ db with
          workouts := db.workouts ++ [⟨w.id, w.title, w.started_at, w.ended_at, w.notes⟩] },
        true)
  (w.logs.foldl (fun d log => sync_log d w.id log) step1.1, step1.2)

/-- The `for w in workouts` reconciliation loop shared verbatim by
`sync_latest_workouts` and `sync_all_workouts`; returns the resulting store
together with the `inserted` and `updated` counters. -/
def sync_batch : DB → List HevyWorkout → DB × Nat × Nat
  | db, [] => (db, 0, 0)
  | db, w :: ws =>
    let step := sync_workout db w
    let rest := sync_batch step.1 ws
    (rest.1, (if step.2 then 1 else 0) + rest.2.1, (if step.2 then 0 else 1) + rest.2.2)

/-- The body of `sync_latest_workouts` up to and including
`session.commit()`; `commit_ok = false` models a persistence error raised by
the commit.  The commit is whole-batch atomic, so a failing commit leaves
the persisted state unchanged. -/
def sync_latest_body (db : DB) (fetched : List HevyWorkout) (commit_ok : Bool) :
    Except String (Nat × DB) :=
  if fetched.isEmpty then Except.ok (0, db)
  else
    let r := sync_batch db fetched
    if commit_ok then Except.ok (r.2.1, r.1) else Except.error "commit failed"

/-- `sync_latest_workouts` as observed by its caller: the whole body runs
under `try: ... except Exception: return 0`, so the caller always receives a
plain inserted-count (paired here with the resulting persisted state). -/
def sync_latest_workouts (db : DB) (fetched : List HevyWorkout) (commit_ok : Bool) :
    Nat × DB :=
  match sync_latest_body db fetched commit_ok with
  | Except.ok r => r
  | Except.error _ => (0, db)

/-- The body of `sync_all_workouts` (the backfill path): the workout-level
reconciliation loop is identical to the latest-sync one and the function
likewise returns `inserted`. -/
def sync_all_body (db : DB) (fetched : List HevyWorkout) (commit_ok : Bool) :
    Except String (Nat × DB) :=
  if fetched.isEmpty then Except.ok (0, db)
  else
    let r := sync_batch db fetched
    if commit_ok then Except.ok (r.2.1, r.1) else Except.error "commit failed"

/-- `sync_all_workouts` as observed by its caller (`try/except` returns 0 on
any error). -/
def sync_all_workouts (db : DB) (fetched : List HevyWorkout) (commit_ok : Bool) :
    Nat × DB :=
  match sync_all_body db fetched commit_ok with
  | Except.ok r => r
  | Except.error _ => (0, db)

/-- A Workout row with the given upstream identifier exists. -/
def has_workout_id (db : DB) (wid : String) : Prop :=
  ∃ x ∈ db.workouts, x.id = wid

theorem sync_log_workouts (db : DB) (wid : String) (log : HevyExerciseLog) :
    (sync_log db wid log).workouts = db.workouts := by
  simp only [sync_log]
  split <;> split <;> rfl

theorem sync_logs_workouts (db : DB) (wid : String) (logs : List HevyExerciseLog) :
    (logs.foldl (fun d log => sync_log d wid log) db).workouts = db.workouts := by
  induction logs generalizing db with
  | nil => rfl
  | cons l ls ih => rw [List.foldl_cons, ih, sync_log_workouts]

theorem sync_workout_workouts_extends (db : DB) (w : HevyWorkout) :
    ∃ t, (sync_workout db w).1.workouts = db.workouts ++ t := by
  simp only [sync_workout]
  cases hfw : find_workout db w.id with
  | some x => exact ⟨[], by simp [hfw, sync_logs_workouts]⟩
  | none =>
    refine ⟨[⟨w.id, w.title, w.started_at, w.ended_at, w.notes⟩], ?_⟩
    simp [hfw, sync_logs_workouts]

theorem sync_workout_found (db : DB) (w : HevyWorkout) (h : has_workout_id db w.id) :
    (sync_workout db w).1.workouts = db.workouts ∧ (sync_workout db w).2 = false := by
  obtain ⟨x, hx, hid⟩ := h
  have hfind : (find_workout db w.id).isSome := by
    rw [find_workout, List.find?_isSome]
    exact ⟨x, hx, by simp [hid]⟩
  obtain ⟨y, hy⟩ := Option.isSome_iff_exists.mp hfind
  simp only [sync_workout]
  rw [hy]
  exact ⟨sync_logs_workouts _ _ _, rfl⟩

theorem sync_workout_has_own_id (db : DB) (w : HevyWorkout) :
    has_workout_id (sync_workout db w).1 w.id := by
  simp only [sync_workout]
  cases hfw : find_workout db w.id with
  | some x =>
    have hmem := List.mem_of_find?_eq_some hfw
    have hpred := List.find?_some hfw
    simp only [decide_eq_true_eq] at hpred
    exact ⟨x, by simpa [sync_logs_workouts] using hmem, hpred⟩
  | none =>
    refine ⟨⟨w.id, w.title, w.started_at, w.ended_at, w.notes⟩, ?_, rfl⟩
    simp [sync_logs_workouts]

theorem has_workout_id_mono (db : DB) (w : HevyWorkout) (wid : String)
    (h : has_workout_id db wid) : has_workout_id (sync_workout db w).1 wid := by
  obtain ⟨t, ht⟩ := sync_workout_workouts_extends db w
  obtain ⟨x, hx, hid⟩ := h
  exact ⟨x, by rw [ht]; exact List.mem_append_left _ hx, hid⟩

theorem sync_batch_mono (db : DB) (ws : List HevyWorkout) (wid : String)
    (h : has_workout_id db wid) : has_workout_id (sync_batch db ws).1 wid := by
  induction ws generalizing db with
  | nil => exact h
  | cons w ws ih =>
    simp only [sync_batch]
    exact ih _ (has_workout_id_mono db w wid h)

theorem sync_batch_covers (db : DB) (ws : List HevyWorkout) :
    ∀ w ∈ ws, has_workout_id (sync_batch db ws).1 w.id := by
  induction ws generalizing db with
  | nil => intro w hw; cases hw
  | cons w ws ih =>
    intro w' hw'
    rcases List.mem_cons.mp hw' with rfl | hmem
    · simp only [sync_batch]
      exact sync_batch_mono _ _ _ (sync_workout_has_own_id db w')
    · simp only [sync_batch]
      exact ih _ w' hmem

theorem sync_batch_all_present (db : DB) (ws : List HevyWorkout)
    (h : ∀ w ∈ ws, has_workout_id db w.id) :
    (sync_batch db ws).1.workouts = db.workouts ∧ (sync_batch db ws).2.1 = 0 := by
  induction ws generalizing db with
  | nil => exact ⟨rfl, rfl⟩
  | cons w ws ih =>
    have hw := h w (List.mem_cons_self w ws)
    have hfound := sync_workout_found db w hw
    have htail : ∀ w' ∈ ws, has_workout_id (sync_workout db w).1 w'.id := by
      intro w' hw'
      obtain ⟨x, hx, hid⟩ := h w' (List.mem_cons_of_mem w hw')
      exact ⟨x, by rw [hfound.1]; exact hx, hid⟩
    have := ih _ htail
    simp only [sync_batch]
    refine ⟨by rw [this.1, hfound.1], ?_⟩
    rw [hfound.2]
    simp [this.2]

theorem sync_run_covers (db : DB) (ws : List HevyWorkout) :
    ∀ w ∈ ws, has_workout_id (sync_latest_workouts db ws true).2 w.id := by
  intro w hw
  cases hemp : ws.isEmpty with
  | true =>
    rw [List.isEmpty_iff] at hemp
    subst hemp
    cases hw
  | false =>
    simp only [sync_latest_workouts, sync_latest_body, hemp, Bool.false_eq_true,
      if_false, if_true]
    exact sync_batch_covers db ws w hw

theorem sync_second_run (db : DB) (ws : List HevyWorkout)
    (h : ∀ w ∈ ws, has_workout_id db w.id) :
    (sync_latest_workouts db ws true).1 = 0 ∧
    (sync_latest_workouts db ws true).2.workouts = db.workouts := by
  cases hemp : ws.isEmpty with
  | true =>
    simp [sync_latest_workouts, sync_latest_body, hemp]
  | false =>
    simp only [sync_latest_workouts, sync_latest_body, hemp, Bool.false_eq_true,
      if_false, if_true]
    have := sync_batch_all_present db ws h
    exact ⟨this.2, this.1⟩

theorem sync_all_eq_sync_latest :
    sync_all_workouts = sync_latest_workouts := rfl

/-- C1: reconciliation is idempotent at the Workout level.  For every store
and every fetched sequence of canonical workouts, running either
reconciliation path (latest-sync or backfill) a second time on the identical
input, against the state left by the first run, reports an inserted-count of
0 and leaves the Workout table unchanged (no new row for any workout
identifier, all of which are already present). -/
theorem C1_reconciliation_idempotent (db : DB) (ws : List HevyWorkout) :
    ((sync_latest_workouts (sync_latest_workouts db ws true).2 ws true).1 = 0 ∧
      (sync_latest_workouts (sync_latest_workouts db ws true).2 ws true).2.workouts
        = (sync_latest_workouts db ws true).2.workouts) ∧
    ((sync_all_workouts (sync_all_workouts db ws true).2 ws true).1 = 0 ∧
      (sync_all_workouts (sync_all_workouts db ws true).2 ws true).2.workouts
        = (sync_all_workouts db ws true).2.workouts) := by
  constructor
  · exact sync_second_run _ ws (sync_run_covers db ws)
  · rw [sync_all_eq_sync_latest]
    exact sync_second_run _ ws (sync_run_covers db ws)

/-- The empty store. -/
def db_empty : DB := ⟨[], [], [], [], 0⟩

/-- A minimal canonical workout used as concrete input. -/
def hw_simple : HevyWorkout := ⟨"w1", none, 0, none, none, []⟩

/-- C6 counterexample: with a nonempty batch whose commit raises a
persistence error, the body of `sync_latest_workouts` produces the error,
but the caller receives the perfectly normal return value 0 (paired with an
unchanged store) — the error is swallowed, not propagated. -/
theorem C6_commit_error_swallowed_counterexample :
    sync_latest_body db_empty [hw_simple] false = Except.error "commit failed" ∧
    sync_latest_workouts db_empty [hw_simple] false = (0, db_empty) := by
  constructor <;> rfl

/-- C6 amended: a persistence error raised during commit aborts the current
reconciliation batch (the persisted state is left unchanged; prior committed
batches remain), but it does *not* propagate: both sync entry points catch
every exception and return the normal value 0 to their caller. -/
theorem C6_commit_error_aborts_batch_and_returns_zero
    (db : DB) (ws : List HevyWorkout) :
    sync_latest_workouts db ws false = (0, db) ∧
    sync_all_workouts db ws false = (0, db) := by
  constructor <;>
    · cases hemp : ws.isEmpty <;>
        simp [sync_latest_workouts, sync_all_workouts,
          sync_latest_body, sync_all_body, hemp]

/-! ## Weekly workout counts (`stats.py`, `weekly_workouts`) -/

/-- The 12 pre-seeded zero buckets of `weekly_workouts`: the ISO weeks of
`start + i weeks` for `i = 0..11`, where `start = now - 12 weeks`. -/
def weekly_buckets_init (now : Time) : List (Int × Nat) :=
  (List.range 12).map
    (fun i => (isoWeekKey (now - 12 * secondsPerWeek + (i : Int) * secondsPerWeek), 0))

/-- `buckets[key] += 1` with dict semantics: a missing key is first seeded
(`if key not in buckets: buckets[key] = 0`) and appended at the end. -/
def bump_bucket (buckets : List (Int × Nat)) (k : Int) : List (Int × Nat) :=
  if buckets.any (fun b => decide (b.1 = k)) then
    buckets.map (fun b => if b.1 = k then (b.1, b.2 + 1) else b)
  else buckets ++ [(k, 1)]

/-- `weekly_workouts` from `stats.py`: pre-seed 12 weekly buckets to zero,
bump the bucket of every workout whose start falls in the trailing-12-weeks
window, and return the sorted labels with their counts. -/
def weekly_workouts (db : DB) (now : Time) : List Int × List Nat :=
  let start := now - 12 * secondsPerWeek
  let seeded := weekly_buckets_init now
  let ws := db.workouts.filter (fun w => decide (start ≤ w.started_at))
  let buckets := ws.foldl (fun b w => bump_bucket b (isoWeekKey w.started_at)) seeded
  let labels := sortBy (fun a b : Int => decide (a ≤ b)) (buckets.map Prod.fst)
  let data := labels.map
    (fun k => (((buckets.find? (fun b => decide (b.1 = k))).map Prod.snd).getD 0))
  (labels, data)

/-- A store holding a single workout that started exactly at `now`: its ISO
week (the current week) is not among the 12 pre-seeded buckets. -/
def db_current_week : DB :=
  ⟨[⟨"w1", none, 12 * secondsPerWeek, none, none⟩], [], [], [], 0⟩

/-- C8 counterexample: with one workout in the current ISO week, the weekly
label array has 13 entries, not 12 — the bucket map grows beyond the 12
pre-seeded trailing weeks. -/
theorem C8_thirteen_buckets_counterexample :
    (weekly_workouts db_current_week (12 * secondsPerWeek)).1.length = 13 := by
  decide

theorem bump_bucket_keys (buckets : List (Int × Nat)) (k : Int)
    (hk : k ∈ buckets.map Prod.fst) :
    (bump_bucket buckets k).map Prod.fst = buckets.map Prod.fst := by
  obtain ⟨p, hp, hpk⟩ := List.mem_map.mp hk
  have hany : buckets.any (fun b => decide (b.1 = k)) = true :=
    List.any_eq_true.mpr ⟨p, hp, by simp [hpk]⟩
  simp only [bump_bucket, hany, if_true]
  rw [List.map_map]
  apply List.map_congr_left
  intro q _
  by_cases hq : q.1 = k <;> simp [hq]

theorem fold_bump_keys (ws : List Workout) (init acc : List (Int × Nat))
    (hacc : acc.map Prod.fst = init.map Prod.fst)
    (h : ∀ w ∈ ws, isoWeekKey w.started_at ∈ init.map Prod.fst) :
    (ws.foldl (fun b w => bump_bucket b (isoWeekKey w.started_at)) acc).map Prod.fst
      = init.map Prod.fst := by
  induction ws generalizing acc with
  | nil => exact hacc
  | cons w ws ih =>
    rw [List.foldl_cons]
    apply ih
    · rw [bump_bucket_keys]
      · exact hacc
      · rw [hacc]
        exact h w (List.mem_cons_self w ws)
    · intro w' hw'
      exact h w' (List.mem_cons_of_mem w hw')

/-- C8 amended: whenever every in-window workout's ISO week is among the 12
pre-seeded trailing weekly buckets — in particular whenever zero workouts
exist in the window — `weekly_workouts` returns exactly 12 week entries,
sorted by label, and with zero workouts in the window every count is 0.  (A
workout of the current ISO week falls outside the pre-seeded buckets and
adds a 13th entry.) -/
theorem C8_twelve_buckets_when_weeks_preseeded (db : DB) (now : Time)
    (h : ∀ w ∈ db.workouts, now - 12 * secondsPerWeek ≤ w.started_at →
      isoWeekKey w.started_at ∈ (weekly_buckets_init now).map Prod.fst) :
    (weekly_workouts db now).1.length = 12 ∧
    (weekly_workouts db now).1.Pairwise (fun a b => a ≤ b) ∧
    (db.workouts.filter (fun w => decide (now - 12 * secondsPerWeek ≤ w.started_at)) = [] →
      (weekly_workouts db now).2 = List.replicate 12 0) := by
  have hkeys : ((db.workouts.filter
        (fun w => decide (now - 12 * secondsPerWeek ≤ w.started_at))).foldl
          (fun b w => bump_bucket b (isoWeekKey w.started_at))
          (weekly_buckets_init now)).map Prod.fst
      = (weekly_buckets_init now).map Prod.fst := by
    apply fold_bump_keys _ _ _ rfl
    intro w hw
    have hmem := List.mem_of_mem_filter hw
    have hcond := List.of_mem_filter hw
    simp only [decide_eq_true_eq] at hcond
    exact h w hmem hcond
  have hlen : (weekly_buckets_init now).length = 12 := by
    simp [weekly_buckets_init]
    decide
  refine ⟨?_, ?_, ?_⟩
  · show (sortBy _ _).length = 12
    rw [length_sortBy, hkeys, List.length_map, hlen]
  · exact pairwise_sortBy _
  · intro hempty
    show (sortBy _ ((List.foldl _ (weekly_buckets_init now) _).map Prod.fst)).map _
        = List.replicate 12 0
    rw [hempty]
    simp only [List.foldl_nil]
    rw [List.eq_replicate_iff]
    constructor
    · rw [List.length_map, length_sortBy, List.length_map, hlen]
    · intro b hb
      obtain ⟨k, hk, hkb⟩ := List.mem_map.mp hb
      have hzero : ∀ p ∈ weekly_buckets_init now, p.2 = 0 := by
        intro p hp
        obtain ⟨i, _, hip⟩ := List.mem_map.mp hp
        rw [← hip]
      cases hfind : (weekly_buckets_init now).find? (fun b => decide (b.1 = k)) with
      | none => rw [← hkb, hfind]; rfl
      | some p =>
        have := hzero p (List.mem_of_find?_eq_some hfind)
        rw [← hkb, hfind]
        simp [this]

/-- Witness for C8 at the empty store. -/
theorem C8_twelve_buckets_when_weeks_preseeded_witness :
    (weekly_workouts db_empty 0).1.length = 12 ∧
    (weekly_workouts db_empty 0).1.Pairwise (fun a b => a ≤ b) ∧
    (db_empty.workouts.filter (fun w => decide ((0:Int) - 12 * secondsPerWeek ≤ w.started_at)) = [] →
      (weekly_workouts db_empty 0).2 = List.replicate 12 0) :=
  C8_twelve_buckets_when_weeks_preseeded db_empty 0
    (fun w hw => absurd hw (List.not_mem_nil w))

/-! ## Per-exercise progress and PR ladder (`stats.py`, `exercise_progress`) -/

/-- One element of the per-workout `workout_data` history. -/
structure HistEntry where
  date : Int
  volume : ℚ
  max_weight : ℚ
  total_reps : Int
  sets : Nat
deriving DecidableEq, Repr

/-- One element of the `prs` ladder. -/
structure PrEntry where
  date : Int
  weight : ℚ
deriving DecidableEq, Repr

/-- The mapping returned by `exercise_progress`: either the not-found error
object or the full progress payload. -/
inductive ProgressResult where
  | error (msg : String)
  | ok (exercise_name exercise_id : String) (workout_count : Nat)
      (current_pr : Option ℚ) (history : List HistEntry) (prs : List PrEntry)
deriving DecidableEq, Repr

/-- The PR ladder fold (`stats.py` lines 359–367): walking the history in
chronological order, append a PR record whenever a workout's max weight
strictly exceeds the running `current_pr` (initially 0), updating it. -/
def pr_fold (current_pr : ℚ) : List HistEntry → List PrEntry
  | [] => []
  | d :: rest =>
    if current_pr < d.max_weight then
      ⟨d.date, d.max_weight⟩ :: pr_fold d.max_weight rest
    else pr_fold current_pr rest

/-- Lookup in the `{w.id: w for w in workouts}` dictionary (a duplicate id —
impossible for the primary key — would be overwritten by the last row). -/
def workout_map_get (db : DB) (wid : String) : Option Workout :=
  (db.workouts.filter (fun w => decide (w.id = wid))).getLast?

/-- `exercise_progress` from `stats.py`: the not-found guard, the per-workout
volume/max/reps aggregation over this exercise's link rows, the
chronological sort, the PR ladder and the overall current PR. -/
def exercise_progress (db : DB) (exercise_id : String) : ProgressResult :=
  match db.exercises.find? (fun e => decide (e.id = exercise_id)) with
  | none => ProgressResult.error "Exercise not found"
  | some exercise =>
    let workout_exercises :=
      db.workout_exercises.filter (fun we => decide (we.exercise_id = exercise_id))
    let prelim : List (HistEntry × ℚ) := workout_exercises.filterMap (fun we =>
      match workout_map_get db we.workout_id with
      | none => none
      | some workout =>
        let sets := sets_for db we.id
        if sets.isEmpty then none
        else
          let vol := (sets.map (fun s => s.weight * KG_TO_LBS * (s.reps : ℚ))).sum
          let maxw := sets.foldl (fun m s => max m (s.weight * KG_TO_LBS)) 0
          let reps := (sets.map (fun s => s.reps)).sum
          some (⟨dayKey workout.started_at, round_to vol 1, round_to maxw 1,
            reps, sets.length⟩, maxw))
    let max_weight_ever := (prelim.map Prod.snd).foldl max 0
    let workout_data := sortBy (fun a b => decide (a.date ≤ b.date)) (prelim.map Prod.fst)
    let prs := pr_fold 0 workout_data
    ProgressResult.ok exercise.name exercise_id workout_data.length
      (if 0 < max_weight_ever then some (round_to max_weight_ever 1) else none)
      workout_data prs

/-- Modelled from the spec's words for C9: a PR event fires exactly when an
entry's max weight strictly exceeds the running maximum of everything seen
so far (with nothing seen yet, the nonnegative max weights are compared
against 0). -/
def running_max_prs (seen : ℚ) : List HistEntry → List PrEntry
  | [] => []
  | d :: rest =>
    (if seen < d.max_weight then [⟨d.date, d.max_weight⟩] else []) ++
      running_max_prs (max seen d.max_weight) rest

theorem pr_fold_eq_running_max (c : ℚ) (entries : List HistEntry) :
    pr_fold c entries = running_max_prs c entries := by
  induction entries generalizing c with
  | nil => rfl
  | cons d rest ih =>
    by_cases h : c < d.max_weight
    · rw [pr_fold, running_max_prs, if_pos h, if_pos h,
        max_eq_right (le_of_lt h), ih]
      rfl
    · rw [pr_fold, running_max_prs, if_neg h, if_neg h,
        max_eq_left (le_of_not_lt h), ih]
      rfl

/-- C9: the `prs` field of `exercise_progress` is exactly the PR fold over
the chronological history; that fold appends a record exactly when an
entry's max weight strictly exceeds the running maximum seen so far; and on
the max-weight sequence `[100, 95, 110, 110, 120]` the PR events are exactly
`100, 110, 120`, in that order. -/
theorem C9_pr_ladder_strictly_increasing :
    (∀ (db : DB) (exid name eid : String) (wc : Nat) (cpr : Option ℚ)
        (hist : List HistEntry) (prs : List PrEntry),
      exercise_progress db exid = ProgressResult.ok name eid wc cpr hist prs →
      prs = pr_fold 0 hist) ∧
    (∀ entries : List HistEntry, pr_fold 0 entries = running_max_prs 0 entries) ∧
    (pr_fold 0 [⟨0, 0, 100, 0, 0⟩, ⟨1, 0, 95, 0, 0⟩, ⟨2, 0, 110, 0, 0⟩,
        ⟨3, 0, 110, 0, 0⟩, ⟨4, 0, 120, 0, 0⟩]).map PrEntry.weight
      = [100, 110, 120] := by
  refine ⟨?_, fun entries => pr_fold_eq_running_max 0 entries, ?_⟩
  · intro db exid name eid wc cpr hist prs h
    cases hfind : db.exercises.find? (fun e => decide (e.id = exid)) with
    | none =>
      simp only [exercise_progress, hfind] at h
      exact ProgressResult.noConfusion h
    | some ex =>
      simp only [exercise_progress, hfind, ProgressResult.ok.injEq] at h
      rw [← h.2.2.2.2.2, ← h.2.2.2.2.1]
  · with_unfolding_all decide

/-- A store with one exercise, one workout, one link row and one 50 kg × 5
set. -/
def db_one : DB :=
  ⟨[⟨"w1", none, 0, none, none⟩], [⟨"e1", "Bench Press"⟩], [⟨1, "w1", "e1"⟩],
    [⟨1, 50, 5, none⟩], 2⟩

/-- A store with one exercise row and nothing else. -/
def db_exercise_only : DB := ⟨[], [⟨"e1", "Bench Press"⟩], [], [], 0⟩

/-- Witness for C9: `exercise_progress` on the concrete store
`db_exercise_only` produces a history and a PR ladder related by
`pr_fold`. -/
theorem C9_pr_ladder_strictly_increasing_witness :
    exercise_progress db_exercise_only "e1"
      = ProgressResult.ok "Bench Press" "e1" 0 none [] [] ∧
    ([] : List PrEntry) = pr_fold 0 [] :=
  ⟨by with_unfolding_all decide,
    C9_pr_ladder_strictly_increasing.1 db_exercise_only "e1" "Bench Press" "e1" 0
      none [] [] (by with_unfolding_all decide)⟩

/-- C10: for an exercise identifier matching no persisted Exercise row,
`exercise_progress` returns the mapping `{"error": "Exercise not found"}`
without raising; the result is determined by the Exercise table alone — any
store with the same Exercise table and arbitrary workout, link and set
tables yields the identical error mapping, so no workout, link or set data
is read. -/
theorem C10_missing_exercise_error (db : DB) (exercise_id : String)
    (h : db.exercises.find? (fun e => decide (e.id = exercise_id)) = none) :
    exercise_progress db exercise_id = ProgressResult.error "Exercise not found" ∧
    ∀ db' : DB, db'.exercises = db.exercises →
      exercise_progress db' exercise_id = ProgressResult.error "Exercise not found" := by
  constructor
  · simp only [exercise_progress, h]
  · intro db' hdb'
    have h' : db'.exercises.find? (fun e => decide (e.id = exercise_id)) = none := by
      rw [hdb']
      exact h
    simp only [exercise_progress, h']

/-- Witness for C10: the identifier `"missing"` matches no row of `db_one`. -/
theorem C10_missing_exercise_error_witness :
    db_one.exercises.find? (fun e => decide (e.id = "missing")) = none ∧
    (exercise_progress db_one "missing" = ProgressResult.error "Exercise not found" ∧
      ∀ db' : DB, db'.exercises = db_one.exercises →
        exercise_progress db' "missing" = ProgressResult.error "Exercise not found") :=
  ⟨by decide, C10_missing_exercise_error db_one "missing" (by decide)⟩

/-! ## Deload detection (`stats.py`, `deload_detection`) -/

/-- The fields of the deload verdict the claims are about. -/
structure DeloadResult where
  needs_deload : Bool
  confidence : String
  reason : String
deriving DecidableEq, Repr

/-- The workouts of the trailing 6-week window, ordered by start time. -/
def deload_window_workouts (db : DB) (now : Time) : List Workout :=
  sortBy (fun a b => decide (a.started_at ≤ b.started_at))
    (db.workouts.filter (fun w => decide (now - 6 * secondsPerWeek ≤ w.started_at)))

/-- The distinct ISO week keys of a workout list, in first-seen order (the
keys of the `workout_weeks` dictionary). -/
def week_keys_of (ws : List Workout) : List Int :=
  ws.foldl
    (fun acc w =>
      if isoWeekKey w.started_at ∈ acc then acc else acc ++ [isoWeekKey w.started_at])
    []

/-- `sorted(workout_weeks.items())`, keys only. -/
def deload_sorted_weeks (db : DB) (now : Time) : List Int :=
  sortBy (fun a b => decide (a ≤ b)) (week_keys_of (deload_window_workouts db now))

/-- The volume accumulated into week bucket `k`: every link row whose
workout is found in the window list (`next(w for w in workouts if ...)`)
and which has sets contributes `weight_lbs * reps` for each of its sets to
its workout's week bucket. -/
def deload_week_volume (db : DB) (ws : List Workout) (k : Int) : ℚ :=
  (db.workout_exercises.map (fun we =>
    match ws.find? (fun w => decide (w.id = we.workout_id)) with
    | none => 0
    | some workout =>
      if isoWeekKey workout.started_at = k then
        ((sets_for db we.id).map (fun s => s.weight * KG_TO_LBS * (s.reps : ℚ))).sum
      else 0)).sum

/-- The chronological `weekly_volumes` series. -/
def weekly_volumes (db : DB) (now : Time) : List ℚ :=
  (deload_sorted_weeks db now).map
    (deload_week_volume db (deload_window_workouts db now))

/-- The fatigue-scoring block of `deload_detection` (lines 749–782) as a
function of the chronological weekly volume series; the code's
`len(sorted_weeks)` equals that series' length. -/
def deload_score_code (vols : List ℚ) : ℕ :=
  let recent_4 := vols.drop (vols.length - 4)
  let volume_drop_pct :=
    if 4 ≤ recent_4.length then
      if 0 < (recent_4.take 2).sum / 2 then
        ((recent_4.drop 2).sum / 2 - (recent_4.take 2).sum / 2)
          / ((recent_4.take 2).sum / 2) * 100
      else 0
    else 0
  let avg_volume := if vols.isEmpty then 0 else vols.sum / (vols.length : ℚ)
  let recent_avg :=
    if 2 ≤ vols.length then (vols.drop (vols.length - 2)).sum / 2 else 0
  let volume_spike :=
    if 0 < avg_volume then (recent_avg - avg_volume) / avg_volume * 100 else 0
  (if volume_drop_pct < -15 then 2 else 0) +
  (if 30 < volume_spike then 2 else 0) +
  (if 4 ≤ vols.length ∧
      3 ≤ recent_4.countP (fun v => decide (avg_volume * (11/10) < v))
    then 1 else 0)

/-- `deload_detection` from `stats.py`: the two insufficient-data guards,
then the scored verdict (`needs_deload` iff score ≥ 2; confidence high for
score ≥ 3, medium for ≥ 2, else low). -/
def deload_detection (db : DB) (now : Time) : DeloadResult :=
  let ws := deload_window_workouts db now
  if ws.length < 6 then
    ⟨false, "low", "Insufficient data (need at least 6 workouts)"⟩
  else if (deload_sorted_weeks db now).length < 4 then
    ⟨false, "low", "Need at least 4 weeks of data"⟩
  else
    let score := deload_score_code (weekly_volumes db now)
    ⟨decide (2 ≤ score),
      if 3 ≤ score then "high" else if 2 ≤ score then "medium" else "low",
      if 2 ≤ score then
        "Multiple fatigue indicators detected. A deload week would support recovery and future progress."
      else if score = 1 then
        "Some fatigue indicators present. Continue training but watch for additional signs."
      else "No immediate deload needed. Keep up the good work!"⟩

/-- Modelled from the spec's words for C2: +2 when the most-recent-2-week
average volume is more than 15% below the average of the 2 weeks before
that; +2 when the most-recent-2-week average is more than 30% above the
all-window average; +1 when at least 3 of the trailing 4 weeks each exceed
110% of the all-window average ("more than p% below/above x" presupposes a
positive baseline x). -/
def deload_score_spec (vols : List ℚ) : ℕ :=
  let recent_4 := vols.drop (vols.length - 4)
  let first_2_avg := (recent_4.take 2).sum / 2
  let last_2_avg := (recent_4.drop 2).sum / 2
  let all_avg := vols.sum / (vols.length : ℚ)
  let recent_2_avg := (vols.drop (vols.length - 2)).sum / 2
  (if 0 < first_2_avg ∧ last_2_avg < first_2_avg * (85/100) then 2 else 0) +
  (if 0 < all_avg ∧ all_avg * (130/100) < recent_2_avg then 2 else 0) +
  (if 3 ≤ recent_4.countP (fun v => decide (all_avg * (110/100) < v)) then 1 else 0)

/-- Confidence label as a function of the deload score. -/
def confidence_spec (score : ℕ) : String :=
  if 3 ≤ score then "high" else if 2 ≤ score then "medium" else "low"

theorem deload_score_code_eq_spec (vols : List ℚ) (h4 : 4 ≤ vols.length) :
    deload_score_code vols = deload_score_spec vols := by
  unfold deload_score_code deload_score_spec
  have hr4 : (vols.drop (vols.length - 4)).length = 4 := by
    rw [List.length_drop]
    omega
  have hne : vols.isEmpty = false := by
    cases vols with
    | nil => simp at h4
    | cons a l => rfl
  simp only [hr4, hne, Bool.false_eq_true, if_false, if_pos (le_refl 4),
    if_pos (show 2 ≤ vols.length by omega), if_pos h4, true_and]
  have e1 : ((if 0 < ((vols.drop (vols.length - 4)).take 2).sum / 2 then
        (((vols.drop (vols.length - 4)).drop 2).sum / 2
            - ((vols.drop (vols.length - 4)).take 2).sum / 2)
          / (((vols.drop (vols.length - 4)).take 2).sum / 2) * 100
      else 0) < -15) ↔
      (0 < ((vols.drop (vols.length - 4)).take 2).sum / 2 ∧
        ((vols.drop (vols.length - 4)).drop 2).sum / 2
          < ((vols.drop (vols.length - 4)).take 2).sum / 2 * (85/100)) := by
    set f := ((vols.drop (vols.length - 4)).take 2).sum / 2 with hf
    set l := ((vols.drop (vols.length - 4)).drop 2).sum / 2 with hl
    by_cases hfp : 0 < f
    · rw [if_pos hfp, div_mul_eq_mul_div, div_lt_iff₀ hfp]
      constructor
      · intro h
        exact ⟨hfp, by nlinarith⟩
      · intro h
        nlinarith [h.2]
    · rw [if_neg hfp]
      constructor
      · intro h
        norm_num at h
      · intro h
        exact absurd h.1 hfp
  have e2 : (30 < (if 0 < vols.sum / (vols.length : ℚ) then
        ((vols.drop (vols.length - 2)).sum / 2 - vols.sum / (vols.length : ℚ))
          / (vols.sum / (vols.length : ℚ)) * 100
      else 0)) ↔
      (0 < vols.sum / (vols.length : ℚ) ∧
        vols.sum / (vols.length : ℚ) * (130/100)
          < (vols.drop (vols.length - 2)).sum / 2) := by
    set A := vols.sum / (vols.length : ℚ) with hA
    set r := (vols.drop (vols.length - 2)).sum / 2 with hr
    by_cases hAp : 0 < A
    · rw [if_pos hAp, div_mul_eq_mul_div, lt_div_iff₀ hAp]
      constructor
      · intro h
        exact ⟨hAp, by nlinarith⟩
      · intro h
        nlinarith [h.2]
    · rw [if_neg hAp]
      constructor
      · intro h
        norm_num at h
      · intro h
        exact absurd h.1 hAp
  rw [show ((110:ℚ)/100) = 11/10 by norm_num]
  simp only [e1, e2]
  simp [h4]

/-- C2: `deload_detection` returns a `needs_deload = false`, low-confidence
verdict when the trailing 6-week window holds fewer than 6 workouts or
fewer than 4 distinct workout weeks; otherwise `needs_deload` is true
exactly when the claim's deload score (over the chronological weekly volume
series) is at least 2, and the confidence is high for score ≥ 3, medium for
score ≥ 2, and low otherwise. -/
theorem C2_deload_detection_scoring (db : DB) (now : Time) :
    ((deload_window_workouts db now).length < 6 ∨
        (deload_sorted_weeks db now).length < 4 →
      (deload_detection db now).needs_deload = false ∧
      (deload_detection db now).confidence = "low") ∧
    (6 ≤ (deload_window_workouts db now).length →
      4 ≤ (deload_sorted_weeks db now).length →
      ((deload_detection db now).needs_deload = true ↔
        2 ≤ deload_score_spec (weekly_volumes db now)) ∧
      (deload_detection db now).confidence
        = confidence_spec (deload_score_spec (weekly_volumes db now))) := by
  constructor
  · intro h
    by_cases h6 : (deload_window_workouts db now).length < 6
    · simp [deload_detection, h6]
    · have h4 : (deload_sorted_weeks db now).length < 4 := h.resolve_left h6
      simp [deload_detection, h6, h4]
  · intro h6 h4
    have hlen4 : 4 ≤ (weekly_volumes db now).length := by
      rw [weekly_volumes, List.length_map]
      exact h4
    have hcode := deload_score_code_eq_spec (weekly_volumes db now) hlen4
    simp only [deload_detection, if_neg (by omega : ¬ (deload_window_workouts db now).length < 6),
      if_neg (by omega : ¬ (deload_sorted_weeks db now).length < 4), hcode]
    exact ⟨by simp, rfl⟩

/-- Witness for C2 at the empty store (insufficient-data branch). -/
theorem C2_deload_detection_scoring_witness :
    ((deload_window_workouts db_empty 0).length < 6 ∨
      (deload_sorted_weeks db_empty 0).length < 4) ∧
    ((deload_detection db_empty 0).needs_deload = false ∧
      (deload_detection db_empty 0).confidence = "low") :=
  ⟨Or.inl (by decide),
    (C2_deload_detection_scoring db_empty 0).1 (Or.inl (by decide))⟩

/-! ## Workout predictions (`stats.py`, `workout_predictions`) -/

/-- One session of an exercise's recent history (`exercise_history`
entries). -/
structure SessionStat where
  date : Time
  max_weight : ℚ
  avg_weight : ℚ
  total_volume : ℚ
  sets : Nat
  total_reps : Int
deriving DecidableEq, Repr

/-- One prediction mapping of the `predictions` output array. -/
structure Prediction where
  exercise_id : String
  exercise_name : String
  muscle_group : String
  current_max_weight : ℚ
  recommended_weight : ℚ
  recommended_sets : Int
  recommended_reps : Int
  confidence : String
  reason : String
  sessions_analyzed : Nat
  progression_rate : ℚ
deriving DecidableEq, Repr, Inhabited

/-- Python `max` over a (nonempty) list. -/
def pyMax : List ℚ → ℚ
  | [] => 0
  | x :: xs => xs.foldl max x

/-- The per-exercise prediction body (`stats.py` lines 585–650), applied to
the chronologically sorted session history of one qualifying exercise:
last-5-session window, linear per-session weight delta (computed only when
at least 3 sessions are in the window), the recommendation policy, rounding
to the nearest 2.5 lb, and the rolling set/rep averages. -/
def prediction_for (ex_id exercise_name : String) (history : List SessionStat) :
    Prediction :=
  let recent_sessions := history.drop (history.length - 5)
  let recent_max_weights := recent_sessions.map (fun s => s.max_weight)
  let current_max := recent_max_weights.getLastD 0
  let avg_sets : ℚ :=
    ((recent_sessions.map (fun s => (s.sets : ℚ))).sum) / (recent_sessions.length : ℚ)
  let avg_reps_per_set : ℚ :=
    ((recent_sessions.map (fun s => (s.total_reps : ℚ))).sum)
      / ((recent_sessions.map (fun s => (s.sets : ℚ))).sum)
  let progression_per_session : ℚ :=
    if 3 ≤ recent_max_weights.length then
      if 1 < recent_max_weights.length then
        (recent_max_weights.getLastD 0 - recent_max_weights.headD 0)
          / ((recent_max_weights.length : ℚ) - 1)
      else 0
    else 0
  let rec_conf_reason : ℚ × String × String :=
    if 1/2 < progression_per_session then
      (current_max + 5/2, "high", "Consistent progression detected")
    else if -(1/2) < progression_per_session then
      (current_max, "medium", "Maintain weight, focus on volume/form")
    else
      (current_max * (9/10), "medium", "Consider deload or form check")
  let recommended_weight := (pyRound (rec_conf_reason.1 / (5/2)) : ℚ) * (5/2)
  { exercise_id := ex_id
    exercise_name := exercise_name
    muscle_group := categorize_exercise exercise_name
    current_max_weight := round_to current_max 1
    recommended_weight := round_to recommended_weight 1
    recommended_sets := pyRound avg_sets
    recommended_reps := pyRound avg_reps_per_set
    confidence := rec_conf_reason.2.1
    reason := rec_conf_reason.2.2
    sessions_analyzed := recent_sessions.length
    progression_rate := round_to progression_per_session 2 }

/-- `exercise_map.get(ex_id, "Unknown")`. -/
def wp_exercise_name_of (db : DB) (exid : String) : String :=
  ((db.exercises.find? (fun e => decide (e.id = exid))).map Exercise.name).getD "Unknown"

/-- The trailing-8-weeks workouts, most recent first (`recent_workouts`). -/
def wp_recent_workouts (db : DB) (now : Time) : List Workout :=
  sortBy (fun a b => decide (b.started_at ≤ a.started_at))
    (db.workouts.filter (fun w => decide (now - 8 * secondsPerWeek ≤ w.started_at)))

/-- The keys of the `exercise_frequency` dictionary, in insertion order. -/
def wp_exercise_ids (db : DB) : List String :=
  db.workout_exercises.foldl
    (fun acc we => if we.exercise_id ∈ acc then acc else acc ++ [we.exercise_id]) []

/-- `exercise_frequency[exid]`: the count over *all* link rows. -/
def wp_freq (db : DB) (exid : String) : Nat :=
  db.workout_exercises.countP (fun we => decide (we.exercise_id = exid))

/-- `exercise_history[exid]`: one session entry per link row of this
exercise whose workout appears in the recent window and which has sets, in
link-row order. -/
def wp_history (db : DB) (recent_workouts : List Workout) (exid : String) :
    List SessionStat :=
  db.workout_exercises.filterMap (fun we =>
    if we.exercise_id ≠ exid then none
    else
      match recent_workouts.find? (fun w => decide (w.id = we.workout_id)) with
      | none => none
      | some workout =>
        let sets := sets_for db we.id
        if sets.isEmpty then none
        else
          let weights := sets.map (fun s => s.weight * KG_TO_LBS)
          some { date := workout.started_at
                 max_weight := pyMax weights
                 avg_weight := weights.sum / (weights.length : ℚ)
                 total_volume :=
                   (sets.map (fun s => s.weight * KG_TO_LBS * (s.reps : ℚ))).sum
                 sets := sets.length
                 total_reps := (sets.map (fun s => s.reps)).sum })

/-- `workout_predictions` from `stats.py`: the trailing-8-weeks workout
window (an empty window short-circuits to no predictions), per-exercise
frequency over all link rows, recent session histories, the top 8 exercises
by frequency (stable descending sort), and one prediction per top exercise
with at least 2 recorded sessions, over its chronologically sorted
history. -/
def workout_predictions (db : DB) (now : Time) : List Prediction :=
  let recent_workouts := wp_recent_workouts db now
  if recent_workouts.isEmpty then []
  else
    let top_exercises :=
      (sortBy (fun a b => decide (b.2 ≤ a.2))
        ((wp_exercise_ids db).map (fun e => (e, wp_freq db e)))).take 8
    top_exercises.filterMap (fun p =>
      if (wp_history db recent_workouts p.1).length < 2 then none
      else some (prediction_for p.1 (wp_exercise_name_of db p.1)
        (sortBy (fun a b => decide (a.date ≤ b.date))
          (wp_history db recent_workouts p.1))))

/-- Modelled from the claim's words (C3 as stated): the per-session weight
delta over the last-5-session max weights equals
`(last − first) / (sessions − 1)`, for every qualifying exercise. -/
def spec_delta_claim (mw : List ℚ) : ℚ :=
  (mw.getLastD 0 - mw.headD 0) / ((mw.length : ℚ) - 1)

/-- Amended delta: the linear `(last − first) / (sessions − 1)` delta only
when the last-5 window holds at least 3 sessions, else 0. -/
def spec_delta_amended (mw : List ℚ) : ℚ :=
  if 3 ≤ mw.length then (mw.getLastD 0 - mw.headD 0) / ((mw.length : ℚ) - 1) else 0

/-- The claim's recommendation policy (raw weight before rounding):
delta > 0.5 → current max + 2.5; delta > −0.5 → hold; else 0.9 × max. -/
def spec_raw_recommendation (delta current_max : ℚ) : ℚ :=
  if 1/2 < delta then current_max + 5/2
  else if -(1/2) < delta then current_max
  else current_max * (9/10)

/-- The claim's recommended weight, rounded to the nearest 2.5 lb. -/
def spec_rounded_recommendation (delta current_max : ℚ) : ℚ :=
  (pyRound (spec_raw_recommendation delta current_max / (5/2)) : ℚ) * (5/2)

/-- The claim's confidence: "high" for the progression branch, "medium"
otherwise. -/
def spec_confidence_c3 (delta : ℚ) : String :=
  if 1/2 < delta then "high" else "medium"

/-- C3 amended: for every qualifying exercise history (at least 2 recorded
sessions), the emitted per-session delta is the linear
`(last − first) / (sessions − 1)` over the last-5-session max weights *when
that window holds at least 3 sessions, and 0 otherwise*; the recommended
weight follows the policy (delta > 0.5 → +2.5 lb; delta > −0.5 → hold;
else 0.9 × max) applied to that delta, always rounded to the nearest
2.5 lb; confidence is "high" on the progression branch and "medium"
otherwise; and the window indeed spans the last `min 5 sessions`. -/
theorem C3_prediction_policy_amended (ex_id exercise_name : String)
    (history : List SessionStat) (h2 : 2 ≤ history.length) :
    (prediction_for ex_id exercise_name history).progression_rate
        = round_to (spec_delta_amended
            ((history.drop (history.length - 5)).map (fun s => s.max_weight))) 2 ∧
    (prediction_for ex_id exercise_name history).recommended_weight
        = round_to (spec_rounded_recommendation
            (spec_delta_amended
              ((history.drop (history.length - 5)).map (fun s => s.max_weight)))
            (((history.drop (history.length - 5)).map (fun s => s.max_weight)).getLastD 0)) 1 ∧
    (prediction_for ex_id exercise_name history).confidence
        = spec_confidence_c3 (spec_delta_amended
            ((history.drop (history.length - 5)).map (fun s => s.max_weight))) ∧
    (prediction_for ex_id exercise_name history).sessions_analyzed
        = min 5 history.length := by
  have hsess : (history.drop (history.length - 5)).length = min 5 history.length := by
    rw [List.length_drop]
    omega
  simp only [prediction_for, spec_delta_amended, spec_rounded_recommendation,
    spec_raw_recommendation, spec_confidence_c3]
  by_cases h3 : 3 ≤ ((history.drop (history.length - 5)).map (fun s => s.max_weight)).length
  · have h1 : 1 < ((history.drop (history.length - 5)).map (fun s => s.max_weight)).length := by
      omega
    simp only [if_pos h3, if_pos h1]
    refine ⟨trivial, ?_, ?_, hsess⟩
    · split_ifs <;> rfl
    · split_ifs <;> rfl
  · simp only [if_neg h3]
    refine ⟨trivial, ?_, ?_, hsess⟩
    · split_ifs <;> rfl
    · split_ifs <;> rfl

/-- A two-session history used as concrete input. -/
def hist_two : List SessionStat :=
  [⟨0, 10, 10, 50, 1, 5⟩, ⟨86400, 20, 20, 100, 1, 5⟩]

/-- Witness for the amended C3 at a concrete two-session history. -/
theorem C3_prediction_policy_amended_witness :
    2 ≤ hist_two.length ∧
    ((prediction_for "e1" "Squat" hist_two).progression_rate
        = round_to (spec_delta_amended
            ((hist_two.drop (hist_two.length - 5)).map (fun s => s.max_weight))) 2 ∧
      (prediction_for "e1" "Squat" hist_two).recommended_weight
        = round_to (spec_rounded_recommendation
            (spec_delta_amended
              ((hist_two.drop (hist_two.length - 5)).map (fun s => s.max_weight)))
            (((hist_two.drop (hist_two.length - 5)).map (fun s => s.max_weight)).getLastD 0)) 1 ∧
      (prediction_for "e1" "Squat" hist_two).confidence
        = spec_confidence_c3 (spec_delta_amended
            ((hist_two.drop (hist_two.length - 5)).map (fun s => s.max_weight))) ∧
      (prediction_for "e1" "Squat" hist_two).sessions_analyzed
        = min 5 hist_two.length) :=
  ⟨by decide, C3_prediction_policy_amended "e1" "Squat" hist_two (by decide)⟩

/-- A store whose single exercise has exactly 2 recorded sessions in the
trailing 8 weeks: one 50 kg × 5 set (max 110.231 lb = 110231/1000) and one
100 kg × 5 set (max 220.462 lb = 110231/500) the next day. -/
def db_two_sessions : DB :=
  ⟨[⟨"w1", none, 0, none, none⟩, ⟨"w2", none, 86400, none, none⟩],
   [⟨"e1", "Bench Press"⟩],
   [⟨1, "w1", "e1"⟩, ⟨2, "w2", "e1"⟩],
   [⟨1, 50, 5, none⟩, ⟨2, 100, 5, none⟩], 3⟩

/-- C3 counterexample: with exactly 2 sessions (a qualifying exercise, top-8
by frequency), the code emits delta 0, holds the weight (220 lb) with
"medium" confidence — while the claim's formula
`(last − first)/(sessions − 1)` over the last-5 max weights
`[110231/1000, 110231/500]` gives 110.231, demanding `current max + 2.5`
rounded (222.5 lb) with "high" confidence. -/
theorem C3_two_sessions_counterexample :
    workout_predictions db_two_sessions (2 * 86400)
      = [{ exercise_id := "e1", exercise_name := "Bench Press",
           muscle_group := "Chest",
           current_max_weight := 441/2, recommended_weight := 220,
           recommended_sets := 1, recommended_reps := 5,
           confidence := "medium",
           reason := "Maintain weight, focus on volume/form",
           sessions_analyzed := 2, progression_rate := 0 }] ∧
    round_to (spec_delta_claim [110231/1000, 110231/500]) 2 = 11023/100 ∧
    spec_rounded_recommendation (spec_delta_claim [110231/1000, 110231/500])
      (110231/500) = 445/2 ∧
    spec_confidence_c3 (spec_delta_claim [110231/1000, 110231/500]) = "high" ∧
    (0 : ℚ) ≠ 11023/100 ∧ (220 : ℚ) ≠ 445/2 ∧ ("medium" : String) ≠ "high" := by
  have hrecent : wp_recent_workouts db_two_sessions (2 * 86400)
      = [⟨"w2", none, 86400, none, none⟩, ⟨"w1", none, 0, none, none⟩] := by
    decide
  have hids : wp_exercise_ids db_two_sessions = ["e1"] := by decide
  have hfreq : wp_freq db_two_sessions "e1" = 2 := by decide
  have hname : wp_exercise_name_of db_two_sessions "e1" = "Bench Press" := by decide
  have hcat : categorize_exercise "Bench Press" = "Chest" := by decide
  have hfind1 : List.find? (fun w => decide (w.id = "w1"))
      [(⟨"w2", none, 86400, none, none⟩ : Workout), ⟨"w1", none, 0, none, none⟩]
      = some ⟨"w1", none, 0, none, none⟩ := by decide
  have hfind2 : List.find? (fun w => decide (w.id = "w2"))
      [(⟨"w2", none, 86400, none, none⟩ : Workout), ⟨"w1", none, 0, none, none⟩]
      = some ⟨"w2", none, 86400, none, none⟩ := by decide
  have hhist : wp_history db_two_sessions
      [⟨"w2", none, 86400, none, none⟩, ⟨"w1", none, 0, none, none⟩] "e1"
      = [⟨0, 110231/1000, 110231/1000, 110231/200, 1, 5⟩,
         ⟨86400, 110231/500, 110231/500, 110231/100, 1, 5⟩] := by
    norm_num [wp_history, sets_for, pyMax, KG_TO_LBS, db_two_sessions,
      List.filterMap, List.filter, hfind1, hfind2]
  have hsorted : sortBy (fun a b => decide (a.date ≤ b.date))
      [(⟨0, 110231/1000, 110231/1000, 110231/200, 1, 5⟩ : SessionStat),
       ⟨86400, 110231/500, 110231/500, 110231/100, 1, 5⟩]
      = [⟨0, 110231/1000, 110231/1000, 110231/200, 1, 5⟩,
         ⟨86400, 110231/500, 110231/500, 110231/100, 1, 5⟩] := by
    norm_num [sortBy, insertSorted]
  have hpred : prediction_for "e1" "Bench Press"
      [⟨0, 110231/1000, 110231/1000, 110231/200, 1, 5⟩,
       ⟨86400, 110231/500, 110231/500, 110231/100, 1, 5⟩]
      = { exercise_id := "e1", exercise_name := "Bench Press",
          muscle_group := "Chest",
          current_max_weight := 441/2, recommended_weight := 220,
          recommended_sets := 1, recommended_reps := 5,
          confidence := "medium",
          reason := "Maintain weight, focus on volume/form",
          sessions_analyzed := 2, progression_rate := 0 } := by
    norm_num [prediction_for, hcat, round_to, pyRound, qfloor_eq_floor, pow10]
  have htop : sortBy (fun a b : String × Nat => decide (b.2 ≤ a.2)) [("e1", 2)]
      = [("e1", 2)] := by decide
  refine ⟨?_, ?_, ?_, ?_, by norm_num, by norm_num, by decide⟩
  · simp only [workout_predictions, hrecent, hids, List.map_cons, List.map_nil,
      hfreq, htop]
    norm_num [List.filterMap, hhist, hname, hsorted, hpred]
  · norm_num [spec_delta_claim, round_to, pyRound, qfloor_eq_floor, pow10]
  · norm_num [spec_rounded_recommendation, spec_raw_recommendation,
      spec_delta_claim, pyRound, qfloor_eq_floor]
  · norm_num [spec_confidence_c3, spec_delta_claim]

end HevyApp
